import Mathlib

/-!
Verification development for the `iot_temperature` repository.

The development shallowly embeds the three Python source files:
* `temp_sim7080g.py` — MicroPython sensor node driving a SIM7080G NB-IoT modem;
* `temp_sim868.py`   — MicroPython sensor node driving a SIM868 2G/GPRS modem;
* `receiver.py`      — CPython MQTT subscriber with a per-device registry and a
  throttled HTTP forwarder.

Sensor values and timestamps are modelled as rationals (the Python code uses
floats; all the properties proved here are about the exact arithmetic the code
performs on the scaled integer values, and about control flow).  Machine
integers are modelled as `Int`/`Nat` with explicit `% 2 ^ 16` where the code
packs into 16-bit fields.  Strings handled by the modem driver are modelled as
`List Char` so that every string operation is structurally recursive.
-/

namespace IoTTemp

/-! ## Telemetry codec

`encode_sensor` in `temp_sim7080g.py` / `temp_sim868.py` (they are literally
identical) and the decoding half of `on_message` in `receiver.py`. -/

/-- Python `int(q)` applied to a number: truncation toward zero. -/
def truncInt (q : ℚ) : ℤ := if 0 ≤ q then ⌊q⌋ else ⌈q⌉

/-- One byte of the wire frame. -/
abbrev Byte := Fin 256

/-- The low 16 bits of an integer, as a natural number in `[0, 65536)`.
MicroPython `struct.pack(">h", x)` does not range-check: it silently truncates
`x` to the 16-bit field width, which is exactly `x % 2 ^ 16`. -/
def word16 (x : ℤ) : ℕ := (x % 65536).toNat

/-- High byte of a 16-bit word (big-endian order). -/
def hiByte (v : ℕ) : Byte := ⟨v / 256 % 256, Nat.mod_lt _ (by norm_num)⟩

/-- Low byte of a 16-bit word (big-endian order). -/
def loByte (v : ℕ) : Byte := ⟨v % 256, Nat.mod_lt _ (by norm_num)⟩

/-- `struct.pack(">h", x)` under MicroPython semantics: big-endian two's
complement, silently wrapping out-of-range values. -/
def packInt16 (x : ℤ) : List Byte := [hiByte (word16 x), loByte (word16 x)]

/-- `encode_sensor(temp, hum, cpu_temp)` from the sensor nodes:
scale by 100 / 10 / 100, truncate toward zero with `int(...)`, pack as three
big-endian signed 16-bit values (`struct.pack(">hhh", ...)`). -/
def encode_sensor (temp hum cpu_temp : ℚ) : List Byte :=
  packInt16 (truncInt (temp * 100)) ++ packInt16 (truncInt (hum * 10)) ++
    packInt16 (truncInt (cpu_temp * 100))

/-- CPython `struct.unpack(">h", ...)` applied to two bytes: big-endian two's
complement signed 16-bit value. -/
def unpackInt16 (hi lo : Byte) : ℤ :=
  if ((hi.val : ℤ) * 256 + lo.val) < 32768 then (hi.val : ℤ) * 256 + lo.val
  else (hi.val : ℤ) * 256 + lo.val - 65536

/-- The decoding half of `on_message` in `receiver.py`: reject any payload whose
length is not exactly 6, otherwise `struct.unpack(">hhh", payload)` and divide
by the scale factors.  Returning `none` models the `return` after the
`len(payload) != 6` check (the malformed-frame discard path). -/
def decodeFrame (payload : List Byte) : Option (ℚ × ℚ × ℚ) :=
  match payload with
  | [b0, b1, b2, b3, b4, b5] =>
    some ((unpackInt16 b0 b1 : ℚ) / 100, (unpackInt16 b2 b3 : ℚ) / 10,
      (unpackInt16 b4 b5 : ℚ) / 100)
  | _ => none

/-- Two's-complement wrap of an integer into the signed 16-bit range, the
"modulo `2 ^ 16` two's-complement" of the spec. -/
def wrap16 (x : ℤ) : ℤ := (x + 32768) % 65536 - 32768

theorem unpack16_pack16_wrap (x : ℤ) :
    unpackInt16 (hiByte (word16 x)) (loByte (word16 x)) = wrap16 x := by
  simp only [unpackInt16, hiByte, loByte, word16, wrap16]
  split <;> omega

theorem unpack16_pack16 (x : ℤ) (h1 : -32768 ≤ x) (h2 : x ≤ 32767) :
    unpackInt16 (hiByte (word16 x)) (loByte (word16 x)) = x := by
  rw [unpack16_pack16_wrap]; unfold wrap16; omega

theorem decode_encode_sensor (t h c : ℚ) :
    decodeFrame (encode_sensor t h c) =
      some ((unpackInt16 (hiByte (word16 (truncInt (t * 100))))
               (loByte (word16 (truncInt (t * 100)))) : ℚ) / 100,
            (unpackInt16 (hiByte (word16 (truncInt (h * 10))))
               (loByte (word16 (truncInt (h * 10)))) : ℚ) / 10,
            (unpackInt16 (hiByte (word16 (truncInt (c * 100))))
               (loByte (word16 (truncInt (c * 100)))) : ℚ) / 100) := rfl

/-- Python `round(q, k)` of a non-negative precision `k`, i.e. round half to
even at `k` decimal places, stated over exact rationals.  Modelled from the
claim wording `round(t, 2)`; used only to compare the codec against the
round-to-nearest reading of the spec. -/
def pyRound (q : ℚ) : ℤ :=
  if q - (⌊q⌋ : ℚ) < 1 / 2 then ⌊q⌋
  else if (1 : ℚ) / 2 < q - (⌊q⌋ : ℚ) then ⌊q⌋ + 1
  else if ⌊q⌋ % 2 = 0 then ⌊q⌋ else ⌊q⌋ + 1

/-- Python `round(q, k)` as a rational: round at `k` decimal digits. -/
def pyRoundTo (k : ℕ) (q : ℚ) : ℚ := (pyRound (q * 10 ^ k) : ℚ) / 10 ^ k

/-- C1 (counterexample): at `t = 0.019`, `h = 40`, `c = 30` — all with scaled
values comfortably inside the signed 16-bit range — the encode/decode round
trip yields `0.01` for the temperature, whereas `round(0.019, 2) = 0.02`:
the codec truncates toward zero, it does not round to nearest. -/
theorem claim_C1_cex :
    (-32768 ≤ truncInt ((19 / 1000 : ℚ) * 100) ∧
        truncInt ((19 / 1000 : ℚ) * 100) ≤ 32767) ∧
    (-32768 ≤ truncInt ((40 : ℚ) * 10) ∧ truncInt ((40 : ℚ) * 10) ≤ 32767) ∧
    (-32768 ≤ truncInt ((30 : ℚ) * 100) ∧ truncInt ((30 : ℚ) * 100) ≤ 32767) ∧
    decodeFrame (encode_sensor (19 / 1000) 40 30) = some (1 / 100, 40, 30) ∧
    pyRoundTo 2 (19 / 1000) = 2 / 100 ∧
    decodeFrame (encode_sensor (19 / 1000) 40 30) ≠
      some (pyRoundTo 2 (19 / 1000), pyRoundTo 1 40, pyRoundTo 2 30) := by
  have ht : truncInt ((19 / 1000 : ℚ) * 100) = 1 := by
    norm_num [truncInt]
  have hh : truncInt ((40 : ℚ) * 10) = 400 := by
    norm_num [truncInt]
  have hc : truncInt ((30 : ℚ) * 100) = 3000 := by
    norm_num [truncInt]
  have hdec : decodeFrame (encode_sensor (19 / 1000) 40 30) =
      some (1 / 100, 40, 30) := by
    rw [decode_encode_sensor, ht, hh, hc,
      unpack16_pack16 1 (by norm_num) (by norm_num),
      unpack16_pack16 400 (by norm_num) (by norm_num),
      unpack16_pack16 3000 (by norm_num) (by norm_num)]
    norm_num
  have hround : pyRoundTo 2 (19 / 1000) = 2 / 100 := by
    have h19 : ((19 : ℚ) / 1000) * 10 ^ 2 = 19 / 10 := by norm_num
    have hfl : (⌊(19 / 10 : ℚ)⌋ : ℤ) = 1 := by norm_num
    rw [pyRoundTo, pyRound, h19, hfl]
    norm_num
  refine ⟨⟨by rw [ht]; norm_num, by rw [ht]; norm_num⟩,
    ⟨by rw [hh]; norm_num, by rw [hh]; norm_num⟩,
    ⟨by rw [hc]; norm_num, by rw [hc]; norm_num⟩, hdec, hround, ?_⟩
  rw [hdec, hround]
  intro hcontra
  have := (Option.some.injEq _ _).mp hcontra
  have h1 : (1 : ℚ) / 100 = 2 / 100 := congrArg Prod.fst this
  norm_num at h1

/-- C1 (amended): for all inputs whose truncated scaled values fit the signed
16-bit range, `decode (encode (t, h, c))` yields exactly the scaled values
truncated toward zero, divided back by the scale factors — i.e. the inputs
quantised by truncation (which coincides with `(t, h, c)` whenever they
already carry at most 2, 1, 2 decimal digits), not the round-to-nearest
values. -/
theorem claim_C1 (t h c : ℚ)
    (ht1 : -32768 ≤ truncInt (t * 100)) (ht2 : truncInt (t * 100) ≤ 32767)
    (hh1 : -32768 ≤ truncInt (h * 10)) (hh2 : truncInt (h * 10) ≤ 32767)
    (hc1 : -32768 ≤ truncInt (c * 100)) (hc2 : truncInt (c * 100) ≤ 32767) :
    decodeFrame (encode_sensor t h c) =
      some ((truncInt (t * 100) : ℚ) / 100, (truncInt (h * 10) : ℚ) / 10,
        (truncInt (c * 100) : ℚ) / 100) := by
  rw [decode_encode_sensor, unpack16_pack16 _ ht1 ht2,
    unpack16_pack16 _ hh1 hh2, unpack16_pack16 _ hc1 hc2]

/-- C1 witness: the round trip evaluated at `(21.5, 40, 30)`. -/
theorem claim_C1_witness :
    decodeFrame (encode_sensor (43 / 2 : ℚ) 40 30) =
      some ((truncInt ((43 / 2 : ℚ) * 100) : ℚ) / 100,
        (truncInt ((40 : ℚ) * 10) : ℚ) / 10,
        (truncInt ((30 : ℚ) * 100) : ℚ) / 100) :=
  claim_C1 (43 / 2) 40 30 (by norm_num [truncInt]) (by norm_num [truncInt])
    (by norm_num [truncInt]) (by norm_num [truncInt]) (by norm_num [truncInt])
    (by norm_num [truncInt])

/-- C9: when the truncated scaled temperature lies outside the signed 16-bit
range, encoding still succeeds (the frame is always 6 bytes), and the value
decodes to its two's-complement wrap modulo `2 ^ 16` — which differs from the
original value — rather than to a clamped value or a failure. -/
theorem claim_C9 (t h c : ℚ)
    (hout : truncInt (t * 100) < -32768 ∨ 32767 < truncInt (t * 100)) :
    (encode_sensor t h c).length = 6 ∧
    decodeFrame (encode_sensor t h c) =
      some ((wrap16 (truncInt (t * 100)) : ℚ) / 100,
        (wrap16 (truncInt (h * 10)) : ℚ) / 10,
        (wrap16 (truncInt (c * 100)) : ℚ) / 100) ∧
    wrap16 (truncInt (t * 100)) ≠ truncInt (t * 100) := by
  refine ⟨rfl, ?_, ?_⟩
  · rw [decode_encode_sensor, unpack16_pack16_wrap, unpack16_pack16_wrap,
      unpack16_pack16_wrap]
  · unfold wrap16; omega

/-- C9 witness: a 400 °C reading (scaled value 40000) wraps. -/
theorem claim_C9_witness :
    (encode_sensor (400 : ℚ) 40 30).length = 6 ∧
    decodeFrame (encode_sensor (400 : ℚ) 40 30) =
      some ((wrap16 (truncInt ((400 : ℚ) * 100)) : ℚ) / 100,
        (wrap16 (truncInt ((40 : ℚ) * 10)) : ℚ) / 10,
        (wrap16 (truncInt ((30 : ℚ) * 100)) : ℚ) / 100) ∧
    wrap16 (truncInt ((400 : ℚ) * 100)) ≠ truncInt ((400 : ℚ) * 100) :=
  claim_C9 400 40 30 (Or.inr (by norm_num [truncInt]))

/-! ## Receiver: device registry and throttled forwarder (`receiver.py`)

The `last_data` dict is modelled as an association list in insertion order
(Python dicts preserve insertion order and `last_data[k] = v` replaces in
place).  `time.time()` values are rationals. -/

/-- One entry of the `last_data` dict in `receiver.py`. -/
structure DeviceRecord where
  temp : ℚ
  hum : ℚ
  cpu : ℚ
  last_mqtt : ℚ
  last_http : ℚ
deriving DecidableEq

/-- The `last_data` dict: device id keyed association list, insertion order. -/
abbrev Registry := List (String × DeviceRecord)

/-- Python dict lookup `last_data.get(d)`. -/
def getRecord : Registry → String → Option DeviceRecord
  | [], _ => none
  | (k, r) :: rest, d => if k = d then some r else getRecord rest d

/-- Python dict assignment `last_data[d] = r`: replace in place if the key is
present, otherwise append. -/
def setRecord : Registry → String → DeviceRecord → Registry
  | [], d, r => [(d, r)]
  | (k, x) :: rest, d, r =>
    if k = d then (d, r) :: rest else (k, x) :: setRecord rest d r

/-- The registry update performed by `on_message` in `receiver.py`: discard the
message when the payload does not decode (length other than 6), otherwise
replace the device record wholesale, carrying the previous `last_http` forward
(`last_data.get(device_id, {}).get("last_http", 0)`). -/
def on_message (st : Registry) (device_id : String) (payload : List Byte)
    (now : ℚ) : Registry :=
  match decodeFrame payload with
  | none => st
  | some (t, h, c) =>
    setRecord st device_id
      { temp := t, hum := h, cpu := c, last_mqtt := now,
        last_http := ((getRecord st device_id).map DeviceRecord.last_http).getD 0 }

/-- One invocation of `send_http` in `receiver.py`, as observed by the outside
world: the arguments passed, and whether `requests.get` completed without
raising.  `send_http` swallows the exception itself (try/except around the
request), so it returns to `update_loop` in either case. -/
structure SinkCall where
  dev : String
  temp : ℚ
  hum : ℚ
  cpu : ℚ
  ok : Bool
deriving DecidableEq

/-- `send_http(device_id, temp, hum, cpu_temp)`, with `fails` telling which
device requests raise inside `requests.get`. -/
def send_http (fails : String → Bool) (d : String) (t h c : ℚ) : SinkCall :=
  { dev := d, temp := t, hum := h, cpu := c, ok := !fails d }

/-- One iteration of the `while True` body of `update_loop` in `receiver.py`
(the spec's `scanAndForward`): for every record due by
`now - last_http >= interval`, call `send_http` with the stored values and
stamp `last_http = now`.  Returns the new registry and the sink invocations in
iteration order. -/
def update_loop_tick (fails : String → Bool) (now interval : ℚ) :
    Registry → Registry × List SinkCall
  | [] => ([], [])
  | (d, r) :: rest =>
    if interval ≤ now - r.last_http then
      ((d, { r with last_http := now }) :: (update_loop_tick fails now interval rest).1,
        send_http fails d r.temp r.hum r.cpu :: (update_loop_tick fails now interval rest).2)
    else
      ((d, r) :: (update_loop_tick fails now interval rest).1,
        (update_loop_tick fails now interval rest).2)

theorem tick_fst_getRecord (fails : String → Bool) (now interval : ℚ)
    (d : String) (st : Registry) :
    getRecord (update_loop_tick fails now interval st).1 d =
      (getRecord st d).map
        (fun r => if interval ≤ now - r.last_http then { r with last_http := now } else r) := by
  induction st with
  | nil => simp [update_loop_tick, getRecord]
  | cons e rest ih =>
    obtain ⟨k, r⟩ := e
    by_cases hdue : interval ≤ now - r.last_http <;>
      by_cases hk : k = d <;>
        simp [update_loop_tick, getRecord, hdue, hk, ih]

theorem tick_fst_indep (f1 f2 : String → Bool) (now interval : ℚ)
    (st : Registry) :
    (update_loop_tick f1 now interval st).1 =
      (update_loop_tick f2 now interval st).1 := by
  induction st with
  | nil => rfl
  | cons e rest ih =>
    obtain ⟨k, r⟩ := e
    by_cases hdue : interval ≤ now - r.last_http <;>
      simp [update_loop_tick, hdue, ih]

theorem tick_snd_dev_mem (fails : String → Bool) (now interval : ℚ)
    (st : Registry) :
    ∀ call ∈ (update_loop_tick fails now interval st).2,
      call.dev ∈ st.map Prod.fst := by
  induction st with
  | nil => simp [update_loop_tick]
  | cons e rest ih =>
    obtain ⟨k, r⟩ := e
    intro call hc
    by_cases hdue : interval ≤ now - r.last_http
    · simp only [update_loop_tick, if_pos hdue, List.mem_cons] at hc
      rcases hc with hc | hc
      · simp [hc, send_http]
      · simp [ih call hc]
    · simp only [update_loop_tick, if_neg hdue] at hc
      simp [ih call hc]

theorem tick_snd_filter_not_mem (fails : String → Bool) (now interval : ℚ)
    (d : String) (st : Registry) (hnm : d ∉ st.map Prod.fst) :
    (update_loop_tick fails now interval st).2.filter
      (fun call => call.dev = d) = [] := by
  rw [List.filter_eq_nil_iff]
  intro call hc
  simp only [decide_eq_true_eq]
  intro hdev
  exact hnm (hdev ▸ tick_snd_dev_mem fails now interval st call hc)

theorem tick_snd_filter (fails : String → Bool) (now interval : ℚ)
    (d : String) (r : DeviceRecord) :
    ∀ st : Registry, getRecord st d = some r → (st.map Prod.fst).Nodup →
      (update_loop_tick fails now interval st).2.filter
          (fun call => call.dev = d) =
        if interval ≤ now - r.last_http then
          [send_http fails d r.temp r.hum r.cpu]
        else [] := by
  intro st
  induction st with
  | nil => intro hget; simp [getRecord] at hget
  | cons e rest ih =>
    obtain ⟨k, x⟩ := e
    intro hget hnd
    rw [List.map_cons, List.nodup_cons] at hnd
    by_cases hk : k = d
    · subst hk
      rw [getRecord, if_pos rfl, Option.some.injEq] at hget
      subst hget
      by_cases hdue : interval ≤ now - x.last_http
      · simp only [update_loop_tick, if_pos hdue, List.filter_cons]
        rw [tick_snd_filter_not_mem fails now interval k rest hnd.1]
        simp [send_http, hdue]
      · simp only [update_loop_tick, if_neg hdue]
        rw [tick_snd_filter_not_mem fails now interval k rest hnd.1]
    · rw [getRecord, if_neg hk] at hget
      have hrest := ih hget hnd.2
      by_cases hdue : interval ≤ now - x.last_http <;>
        simp [update_loop_tick, hdue, List.filter_cons, send_http, hk, hrest]

/-- C2: for a device `d` with record `r` in the registry, one `update_loop`
sweep at time `now` invokes `send_http` for `d` exactly once — with the
most recently stored values — if `now - last_http ≥ interval`, invokes it not
at all otherwise, and stamps `last_http = now` exactly when it forwarded.
Instantiating at the spec scenario (record at `t = 0`, `last_http = 0`,
interval 60): a sweep at `t = 30` forwards nothing, a sweep at `t = 65`
forwards once with the `t = 0` values and leaves `last_http = 65`, hence
sweeps until `t < 125` forward nothing further. -/
theorem claim_C2 (fails : String → Bool) (st : Registry) (now interval : ℚ)
    (d : String) (r : DeviceRecord) (hd : getRecord st d = some r)
    (hnd : (st.map Prod.fst).Nodup) :
    (update_loop_tick fails now interval st).2.filter
        (fun call => call.dev = d) =
      (if interval ≤ now - r.last_http then
        [send_http fails d r.temp r.hum r.cpu]
      else []) ∧
    getRecord (update_loop_tick fails now interval st).1 d =
      some (if interval ≤ now - r.last_http then { r with last_http := now }
        else r) := by
  refine ⟨tick_snd_filter fails now interval d r st hd hnd, ?_⟩
  rw [tick_fst_getRecord, hd, Option.map_some']

/-- C2 witness: device `A` recorded with `(21.5, 40.0)` and `last_http = 0`;
a sweep at `now = 65` with interval 60 forwards exactly once with the stored
values and stamps `last_http = 65`. -/
theorem claim_C2_witness :
    (update_loop_tick (fun _ => false) 65 60
        [("A", ⟨43 / 2, 40, 0, 0, 0⟩)]).2.filter
        (fun call => call.dev = "A") =
      (if (60 : ℚ) ≤ 65 - (0 : ℚ) then
        [send_http (fun _ => false) "A" (43 / 2) 40 0]
      else []) ∧
    getRecord (update_loop_tick (fun _ => false) 65 60
        [("A", ⟨43 / 2, 40, 0, 0, 0⟩)]).1 "A" =
      some (if (60 : ℚ) ≤ 65 - (0 : ℚ) then ⟨43 / 2, 40, 0, 0, 65⟩
        else ⟨43 / 2, 40, 0, 0, 0⟩) :=
  claim_C2 (fun _ => false) [("A", ⟨43 / 2, 40, 0, 0, 0⟩)] 65 60 "A"
    ⟨43 / 2, 40, 0, 0, 0⟩ (by simp [getRecord]) (by simp)

/-- C8: when the HTTP request for a due device raises inside `send_http`, the
sweep still records the (failed) sink invocation, still advances that device's
`last_http` to `now`, and the resulting registry is identical to the one a
fully successful sweep would produce — delivery failure never affects the
stored state, so the next attempt waits a full interval. -/
theorem claim_C8 (fails : String → Bool) (st : Registry) (now interval : ℚ)
    (d : String) (r : DeviceRecord) (hd : getRecord st d = some r)
    (hnd : (st.map Prod.fst).Nodup) (hdue : interval ≤ now - r.last_http)
    (hfail : fails d = true) :
    (⟨d, r.temp, r.hum, r.cpu, false⟩ : SinkCall) ∈
      (update_loop_tick fails now interval st).2 ∧
    getRecord (update_loop_tick fails now interval st).1 d =
      some { r with last_http := now } ∧
    (update_loop_tick fails now interval st).1 =
      (update_loop_tick (fun _ => false) now interval st).1 := by
  refine ⟨?_, ?_, tick_fst_indep _ _ now interval st⟩
  · have hf := tick_snd_filter fails now interval d r st hd hnd
    rw [if_pos hdue] at hf
    have hm : send_http fails d r.temp r.hum r.cpu ∈
        (update_loop_tick fails now interval st).2.filter
          (fun call => call.dev = d) := by
      rw [hf]; exact List.mem_singleton.mpr rfl
    have := List.mem_of_mem_filter hm
    simpa [send_http, hfail] using this
  · rw [tick_fst_getRecord, hd, Option.map_some', if_pos hdue]

/-- C8 witness: the failing-sink sweep at `now = 65` on device `A`. -/
theorem claim_C8_witness :
    (⟨"A", 43 / 2, 40, 0, false⟩ : SinkCall) ∈
      (update_loop_tick (fun _ => true) 65 60
        [("A", ⟨43 / 2, 40, 0, 0, 0⟩)]).2 ∧
    getRecord (update_loop_tick (fun _ => true) 65 60
        [("A", ⟨43 / 2, 40, 0, 0, 0⟩)]).1 "A" =
      some ⟨43 / 2, 40, 0, 0, 65⟩ ∧
    (update_loop_tick (fun _ => true) 65 60
        [("A", ⟨43 / 2, 40, 0, 0, 0⟩)]).1 =
      (update_loop_tick (fun _ => false) 65 60
        [("A", ⟨43 / 2, 40, 0, 0, 0⟩)]).1 :=
  claim_C8 (fun _ => true) [("A", ⟨43 / 2, 40, 0, 0, 0⟩)] 65 60 "A"
    ⟨43 / 2, 40, 0, 0, 0⟩ (by simp [getRecord]) (by simp) (by norm_num) rfl

/-- C6: `decodeFrame` succeeds exactly on payloads of length 6 (any byte
values), and `on_message` leaves the registry untouched whenever the payload
length is not 6 (the malformed frame is discarded). -/
theorem claim_C6 (payload : List Byte) :
    ((decodeFrame payload).isSome ↔ payload.length = 6) ∧
    (∀ st d now, payload.length ≠ 6 → on_message st d payload now = st) := by
  rcases payload with _ | ⟨b0, _ | ⟨b1, _ | ⟨b2, _ | ⟨b3, _ | ⟨b4, _ |
    ⟨b5, _ | ⟨b6, rest⟩⟩⟩⟩⟩⟩⟩ <;>
    simp [decodeFrame, on_message]

/-- C6 witness: the empty payload is rejected and discarded. -/
theorem claim_C6_witness :
    ¬(decodeFrame ([] : List Byte)).isSome ∧
      on_message [] "A" ([] : List Byte) 0 = [] :=
  ⟨fun hs => by simpa using (claim_C6 []).1.mp hs,
    (claim_C6 []).2 [] "A" 0 (by simp)⟩

/-! ## Sensor nodes: control loop, publish retry, broker connect

The modem interaction is abstracted by an oracle `raises : ℕ → Bool` telling
whether the body of the n-th `try` block raises an exception (a UART failure;
`send_at` itself returns normally on `ERROR` or timeout, see `send_at` below).
Unbounded `while True` loops are given explicit fuel; returning `none` means
the fuel ran out while the Python loop would still be spinning. -/

/-- The change-suppression state of `main` in `temp_sim7080g.py`:
`last_temp`, `last_hum`, `last_cpu`, each starting as Python `None`. -/
structure SenderState where
  last_temp : Option ℚ
  last_hum : Option ℚ
  last_cpu : Option ℚ
deriving DecidableEq

/-- The change-suppression state of `main` in `temp_sim868.py`: only
`last_temp` and `last_hum` are tracked. -/
structure Sender868State where
  last_temp : Option ℚ
  last_hum : Option ℚ
deriving DecidableEq

/-- The read/publish portion of one `while True` iteration of `main` in
`temp_sim7080g.py`.  `reading` is the result of `read_sensor()` (`none` models
the `(None, None)` failure return), `cpu` the `read_cpu_temp()` value, and
`_pubOk` the boolean returned by `mqtt_publish` — which the source discards.
Returns the new suppression state and whether a publish was attempted. -/
def sim7080g_main_step (s : SenderState) (reading : Option (ℚ × ℚ)) (cpu : ℚ)
    (_pubOk : Bool) : SenderState × Bool :=
  match reading with
  | none => (s, false)
  | some (t, h) =>
    if some t ≠ s.last_temp ∨ some h ≠ s.last_hum then
      ({ last_temp := some t, last_hum := some h, last_cpu := some cpu }, true)
    else (s, false)

/-- C3: in the SIM7080G control loop, a publish is attempted exactly when the
temperature or humidity differs from the last attempted values; a repeat
observation with identical `(temp, hum)` but different CPU temperature is
never published; an unchanged temperature with a changed humidity is
published; and on every attempt the last-attempted values are replaced with
the new observation, regardless of the `mqtt_publish` return value. -/
theorem claim_C3 (s : SenderState) (t h c1 c2 : ℚ) (p1 p2 : Bool) :
    ((sim7080g_main_step s (some (t, h)) c1 p1).2 = true ↔
      (some t ≠ s.last_temp ∨ some h ≠ s.last_hum)) ∧
    (sim7080g_main_step (sim7080g_main_step s (some (t, h)) c1 p1).1
      (some (t, h)) c2 p2).2 = false ∧
    (s.last_temp = some t → s.last_hum ≠ some h →
      (sim7080g_main_step s (some (t, h)) c1 p1).2 = true) ∧
    ((sim7080g_main_step s (some (t, h)) c1 p1).2 = true →
      (sim7080g_main_step s (some (t, h)) c1 p1).1 =
        ⟨some t, some h, some c1⟩) := by
  by_cases hch : some t ≠ s.last_temp ∨ some h ≠ s.last_hum
  · have hstep : ∀ (c : ℚ) (p : Bool), sim7080g_main_step s (some (t, h)) c p =
        (⟨some t, some h, some c⟩, true) := by
      intro c p
      simp only [sim7080g_main_step, if_pos hch]
    have hstep2 : sim7080g_main_step (⟨some t, some h, some c1⟩ : SenderState)
        (some (t, h)) c2 p2 = (⟨some t, some h, some c1⟩, false) := by
      simp [sim7080g_main_step]
    refine ⟨?_, ?_, fun _ _ => ?_, fun _ => ?_⟩
    · rw [hstep c1 p1]
      exact ⟨fun _ => hch, fun _ => rfl⟩
    · rw [hstep c1 p1]
      exact congrArg Prod.snd hstep2
    · rw [hstep c1 p1]
    · rw [hstep c1 p1]
  · push_neg at hch
    have hstepgen : ∀ (c : ℚ) (p : Bool),
        sim7080g_main_step s (some (t, h)) c p = (s, false) := by
      intro c p
      simp only [sim7080g_main_step]
      rw [if_neg]
      push_neg
      exact hch
    refine ⟨?_, ?_, ?_, ?_⟩
    · rw [hstepgen c1 p1]
      constructor
      · intro hfalse; exact absurd hfalse (by simp)
      · rintro (hne | hne)
        · exact absurd hch.1 hne
        · exact absurd hch.2 hne
    · rw [hstepgen c1 p1]
      exact congrArg Prod.snd (hstepgen c2 p2)
    · intro _ hhum; exact absurd hch.2.symm hhum
    · intro hfalse
      rw [hstepgen c1 p1] at hfalse
      exact absurd hfalse (by simp)

/-- C3 witness: state `(20, 50, 30)`; observation `(20, 55)` (unchanged temp,
changed humidity), then the same observation again with a different CPU
temperature. -/
theorem claim_C3_witness :
    ((sim7080g_main_step ⟨some 20, some 50, some 30⟩ (some (20, 55)) 30
        false).2 = true ↔
      (some (20 : ℚ) ≠ some (20 : ℚ) ∨ some (55 : ℚ) ≠ some (50 : ℚ))) ∧
    (sim7080g_main_step (sim7080g_main_step ⟨some 20, some 50, some 30⟩
        (some (20, 55)) 30 false).1 (some (20, 55)) 31 true).2 = false ∧
    ((⟨some 20, some 50, some 30⟩ : SenderState).last_temp = some 20 →
      (⟨some 20, some 50, some 30⟩ : SenderState).last_hum ≠ some 55 →
      (sim7080g_main_step ⟨some 20, some 50, some 30⟩ (some (20, 55)) 30
        false).2 = true) ∧
    ((sim7080g_main_step ⟨some 20, some 50, some 30⟩ (some (20, 55)) 30
        false).2 = true →
      (sim7080g_main_step ⟨some 20, some 50, some 30⟩ (some (20, 55)) 30
        false).1 = ⟨some 20, some 55, some 30⟩) :=
  claim_C3 ⟨some 20, some 50, some 30⟩ 20 55 30 31 false true

/-- The attempt loop of `mqtt_publish` in `temp_sim7080g.py`
(`for _ in range(3)`), counting `mqtt_connect` invocations and attempts
started.  `raises i` tells whether the i-th try-block (the `AT+SMPUB`
exchange plus the raw payload write) raises.  On a raise the loop calls
`mqtt_connect()` and retries; after three failed attempts it returns `False`.
Result: `(returned value, mqtt_connect invocations, attempts started)`. -/
def sim7080g_publish_go (raises : ℕ → Bool) : ℕ → ℕ → ℕ → ℕ → Bool × ℕ × ℕ
  | 0, _, connects, attempts => (false, connects, attempts)
  | remaining + 1, i, connects, attempts =>
    if raises i then
      sim7080g_publish_go raises remaining (i + 1) (connects + 1) (attempts + 1)
    else (true, connects, attempts + 1)

/-- `mqtt_publish` of `temp_sim7080g.py`, abstracted to its retry behaviour. -/
def sim7080g_mqtt_publish (raises : ℕ → Bool) : Bool × ℕ × ℕ :=
  sim7080g_publish_go raises 3 0 0 0

/-- The attempt loop of `mqtt_publish` in `temp_sim868.py`: same `range(3)`
loop — the try-block issues the CMQTT topic/payload/publish commands instead,
but the retry structure is the same. -/
def sim868_publish_go (raises : ℕ → Bool) : ℕ → ℕ → ℕ → ℕ → Bool × ℕ × ℕ
  | 0, _, connects, attempts => (false, connects, attempts)
  | remaining + 1, i, connects, attempts =>
    if raises i then
      sim868_publish_go raises remaining (i + 1) (connects + 1) (attempts + 1)
    else (true, connects, attempts + 1)

/-- `mqtt_publish` of `temp_sim868.py`, abstracted to its retry behaviour. -/
def sim868_mqtt_publish (raises : ℕ → Bool) : Bool × ℕ × ℕ :=
  sim868_publish_go raises 3 0 0 0

theorem publish_go_eq (raises : ℕ → Bool) :
    ∀ remaining i connects attempts,
      sim7080g_publish_go raises remaining i connects attempts =
        sim868_publish_go raises remaining i connects attempts := by
  intro remaining
  induction remaining with
  | zero => intro i c a; rfl
  | succ n ih =>
    intro i c a
    simp only [sim7080g_publish_go, sim868_publish_go]
    split
    · exact ih (i + 1) (c + 1) (a + 1)
    · rfl

/-- C4: when every attempt raises, `mqtt_publish` makes exactly 3 attempts,
invokes `mqtt_connect` exactly 3 times (once after each failed attempt), and
returns `False` to its caller instead of propagating the exception — in both
modem variants. -/
theorem claim_C4 (raises : ℕ → Bool) (h0 : raises 0 = true)
    (h1 : raises 1 = true) (h2 : raises 2 = true) :
    sim7080g_mqtt_publish raises = (false, 3, 3) ∧
    sim868_mqtt_publish raises = (false, 3, 3) := by
  constructor <;>
    simp [sim7080g_mqtt_publish, sim868_mqtt_publish, sim7080g_publish_go,
      sim868_publish_go, h0, h1, h2]

/-- C4 witness: every attempt raising. -/
theorem claim_C4_witness :
    sim7080g_mqtt_publish (fun _ => true) = (false, 3, 3) ∧
    sim868_mqtt_publish (fun _ => true) = (false, 3, 3) :=
  claim_C4 (fun _ => true) rfl rfl rfl

/-- The observable top-level actions of one control-loop iteration. -/
inductive Ev where
  | init
  | waitNetwork
  | connectBroker
  | publish
deriving DecidableEq

/-- One `while True` iteration of `main` in `temp_sim7080g.py`, as the list of
top-level actions it performs: on a signal sentinel (`rssi == 0 or
rssi == 99`) it re-runs `nb_iot_init()`, `nb_iot_wait_network()` and
`mqtt_connect()` before proceeding to the read/publish step. -/
def sim7080g_cycle (s : SenderState) (rssi : ℤ) (reading : Option (ℚ × ℚ))
    (cpu : ℚ) : SenderState × List Ev :=
  match reading with
  | none => (s, if rssi = 0 ∨ rssi = 99 then [.init, .waitNetwork, .connectBroker] else [])
  | some (t, h) =>
    if some t ≠ s.last_temp ∨ some h ≠ s.last_hum then
      ({ last_temp := some t, last_hum := some h, last_cpu := some cpu },
        (if rssi = 0 ∨ rssi = 99 then [.init, .waitNetwork, .connectBroker] else []) ++
          [.publish])
    else
      (s, if rssi = 0 ∨ rssi = 99 then [.init, .waitNetwork, .connectBroker] else [])

/-- One `while True` iteration of `main` in `temp_sim868.py`.  The SIM868 main
loop never queries the signal: `_rssi` exists only to give both cycle
functions the same inputs, and the body does not consult it. -/
def sim868_cycle (s : Sender868State) (_rssi : ℤ) (reading : Option (ℚ × ℚ))
    (_cpu : ℚ) : Sender868State × List Ev :=
  match reading with
  | none => (s, [])
  | some (t, h) =>
    if some t ≠ s.last_temp ∨ some h ≠ s.last_hum then
      ({ last_temp := some t, last_hum := some h }, [.publish])
    else (s, [])

/-- C5 (counterexample): the two variants do not implement the same top-level
state machine.  With the same inputs — signal sentinel `rssi = 0`, failed
sensor read — the SIM7080G loop tears the session down and rebuilds
(`init`, `waitNetwork`, `connectBroker`), while the SIM868 loop, which never
checks the signal, performs no action at all. -/
theorem claim_C5_cex :
    (sim7080g_cycle ⟨none, none, none⟩ 0 none 0).2 ≠
      (sim868_cycle ⟨none, none⟩ 0 none 0).2 := by
  simp [sim7080g_cycle, sim868_cycle]

/-- C5 (amended): the publish retry policy and the change-suppression
predicate are identical across the two variants — for every pattern of
attempt failures both `mqtt_publish` implementations return the same result
with the same number of reconnects, and away from the signal sentinels the two
loop iterations perform the same actions on the same inputs — but the
top-level state machines differ: only the SIM7080G loop checks the signal
before every cycle and rebuilds the whole session from `init` on the
sentinels 0/99; the SIM868 loop never checks the signal and never re-runs its
initialisation. -/
theorem claim_C5 (raises : ℕ → Bool) (lt lh lc : Option ℚ) (rssi : ℤ)
    (reading : Option (ℚ × ℚ)) (cpu : ℚ) (hs0 : rssi ≠ 0) (hs99 : rssi ≠ 99) :
    sim7080g_mqtt_publish raises = sim868_mqtt_publish raises ∧
    (sim7080g_cycle ⟨lt, lh, lc⟩ rssi reading cpu).2 =
      (sim868_cycle ⟨lt, lh⟩ rssi reading cpu).2 ∧
    (∀ rs : ℤ, rs = 0 ∨ rs = 99 →
      Ev.init ∈ (sim7080g_cycle ⟨lt, lh, lc⟩ rs reading cpu).2 ∧
      Ev.init ∉ (sim868_cycle ⟨lt, lh⟩ rs reading cpu).2) := by
  have hns : ¬(rssi = 0 ∨ rssi = 99) := by
    rintro (h | h) <;> [exact hs0 h; exact hs99 h]
  refine ⟨publish_go_eq raises 3 0 0 0, ?_, ?_⟩
  · rcases reading with _ | ⟨t, h⟩
    · simp [sim7080g_cycle, sim868_cycle, hns]
    · by_cases hch : some t ≠ lt ∨ some h ≠ lh <;>
        simp [sim7080g_cycle, sim868_cycle, hns, hch]
  · intro rs hrs
    rcases reading with _ | ⟨t, h⟩
    · simp [sim7080g_cycle, sim868_cycle, if_pos hrs]
    · constructor
      · by_cases hch : some t ≠ lt ∨ some h ≠ lh <;>
          simp [sim7080g_cycle, if_pos hrs, hch]
      · by_cases hch : some t ≠ lt ∨ some h ≠ lh <;>
          simp [sim868_cycle, hch]

/-- C5 witness: a valid signal (`rssi = 5`), no sensor reading. -/
theorem claim_C5_witness :
    sim7080g_mqtt_publish (fun _ => false) =
      sim868_mqtt_publish (fun _ => false) ∧
    (sim7080g_cycle ⟨none, none, none⟩ 5 none 0).2 =
      (sim868_cycle ⟨none, none⟩ 5 none 0).2 ∧
    (∀ rs : ℤ, rs = 0 ∨ rs = 99 →
      Ev.init ∈ (sim7080g_cycle ⟨none, none, none⟩ rs none 0).2 ∧
      Ev.init ∉ (sim868_cycle ⟨none, none⟩ rs none 0).2) :=
  claim_C5 (fun _ => false) none none none 5 none 0 (by decide) (by decide)

/-! ## AT transport driver and signal polling

`send_at` is modelled over the schedule of byte chunks the UART makes
available at each poll of its drain loop (an empty chunk models a poll with no
data pending; the chunk list running out models the timeout deadline).
Strings are `List Char` so that every operation reduces structurally. -/

/-- Does `pat` occur as a prefix of `l`? -/
def hasPrefixChars : List Char → List Char → Bool
  | [], _ => true
  | _ :: _, [] => false
  | p :: ps, c :: cs => p = c && hasPrefixChars ps cs

/-- Does `pat` occur as a contiguous substring of `l`?  Python `pat in l`. -/
def hasInfixChars (pat : List Char) : List Char → Bool
  | [] => pat.isEmpty
  | c :: cs => hasPrefixChars pat (c :: cs) || hasInfixChars pat cs

/-- The success marker `b"OK"`. -/
def okMarker : List Char := ['O', 'K']

/-- The failure marker `b"ERROR"`. -/
def errMarker : List Char := ['E', 'R', 'R', 'O', 'R']

/-- The drain loop of `send_at` (identical in both sender files): append
whatever the UART has, stop as soon as the buffer contains `OK` or `ERROR`,
otherwise keep polling until the timeout; the accumulated buffer is returned
in every case — `ERROR` and timeout are reported through the return value,
never raised. -/
def send_at_go : List (List Char) → List Char → List Char
  | [], acc => acc
  | chunk :: rest, acc =>
    if hasInfixChars okMarker (acc ++ chunk) ||
        hasInfixChars errMarker (acc ++ chunk) then acc ++ chunk
    else send_at_go rest (acc ++ chunk)

/-- `send_at(cmd)`: the response accumulated from the given chunk schedule. -/
def send_at (chunks : List (List Char)) : List Char := send_at_go chunks []

/-- The `while True` retry loop of `mqtt_connect` (both variants): each
iteration runs the command sequence inside `try`; on a raise it sleeps and
retries forever, returning only when an iteration completes without raising.
Result: the number of iterations executed, `none` if the fuel ran out. -/
def sim7080g_connect_go (raises : ℕ → Bool) : ℕ → ℕ → Option ℕ
  | 0, _ => none
  | fuel + 1, i => if raises i then sim7080g_connect_go raises fuel (i + 1)
    else some (i + 1)

/-- `mqtt_connect` of `temp_sim7080g.py`, abstracted to its retry behaviour. -/
def sim7080g_mqtt_connect (raises : ℕ → Bool) (fuel : ℕ) : Option ℕ :=
  sim7080g_connect_go raises fuel 0

/-- C10: `send_at` reports transport failure only through its return value —
a first chunk carrying `ERROR` (or `OK`) is returned as the response, not
raised — and therefore, when no try-block raises, the `except` arms of
`mqtt_connect` and `mqtt_publish` are dead: `mqtt_connect` returns after
exactly one loop iteration, and both variants' `mqtt_publish` succeed on the
first attempt with zero reconnects, whatever the modem actually answered. -/
theorem claim_C10 (c : List Char) (chunks : List (List Char))
    (raises : ℕ → Bool) (fuel : ℕ)
    (herr : hasInfixChars errMarker c = true) (hok : raises 0 = false) :
    send_at (c :: chunks) = c ∧
    hasInfixChars errMarker (send_at (c :: chunks)) = true ∧
    sim7080g_mqtt_connect raises (fuel + 1) = some 1 ∧
    sim7080g_mqtt_publish raises = (true, 0, 1) ∧
    sim868_mqtt_publish raises = (true, 0, 1) := by
  have hsend : send_at (c :: chunks) = c := by
    simp [send_at, send_at_go, herr]
  refine ⟨hsend, by rw [hsend]; exact herr, ?_, ?_, ?_⟩
  · simp [sim7080g_mqtt_connect, sim7080g_connect_go, hok]
  · simp [sim7080g_mqtt_publish, sim7080g_publish_go, hok]
  · simp [sim868_mqtt_publish, sim868_publish_go, hok]

/-- C10 witness: the modem answers `ERROR` in the first chunk and nothing
raises. -/
theorem claim_C10_witness :
    send_at (['E', 'R', 'R', 'O', 'R'] :: []) = ['E', 'R', 'R', 'O', 'R'] ∧
    hasInfixChars errMarker (send_at (['E', 'R', 'R', 'O', 'R'] :: [])) = true ∧
    sim7080g_mqtt_connect (fun _ => false) (0 + 1) = some 1 ∧
    sim7080g_mqtt_publish (fun _ => false) = (true, 0, 1) ∧
    sim868_mqtt_publish (fun _ => false) = (true, 0, 1) :=
  claim_C10 ['E', 'R', 'R', 'O', 'R'] [] (fun _ => false) 0 (by decide) rfl

/-! ## Signal quality parsing and the network wait loop (`temp_sim7080g.py`) -/

/-- Python `s.split(sep)` for a single-character separator, over `List Char`. -/
def splitOnChar (sep : Char) : List Char → List (List Char)
  | [] => [[]]
  | c :: cs =>
    match splitOnChar sep cs with
    | [] => [[]]
    | g :: gs => if c = sep then [] :: g :: gs else (c :: g) :: gs

/-- Python `s.strip()`: drop leading and trailing whitespace. -/
def stripChars (l : List Char) : List Char :=
  ((l.dropWhile Char.isWhitespace).reverse.dropWhile Char.isWhitespace).reverse

/-- Decimal digits to a natural number (the digits are already validated). -/
def digitsToNat (ds : List Char) : ℕ :=
  ds.foldl (fun a c => a * 10 + (c.toNat - 48)) 0

/-- Python `int(s)` on a stripped string: an optional sign followed by at
least one decimal digit; anything else raises `ValueError` (`none` here). -/
def parseIntChars (l : List Char) : Option ℤ :=
  match l with
  | [] => none
  | '-' :: ds =>
    if ds ≠ [] ∧ ds.all Char.isDigit then some (-(digitsToNat ds : ℤ)) else none
  | '+' :: ds =>
    if ds ≠ [] ∧ ds.all Char.isDigit then some (digitsToNat ds : ℤ) else none
  | ds => if ds.all Char.isDigit then some (digitsToNat ds : ℤ) else none

/-- The parsing pipeline inside `nb_iot_check_signal`:
`resp.split(":")[1].split(",")[0].strip()` fed to `int(...)`.  `none` models
any of the steps raising (missing `":"`, non-numeric field). -/
def parseSignal (resp : List Char) : Option ℤ :=
  match (splitOnChar ':' resp).drop 1 with
  | [] => none
  | second :: _ =>
    match splitOnChar ',' second with
    | [] => none
    | first :: _ => parseIntChars (stripChars first)

/-- `nb_iot_check_signal()` applied to a given `AT+CSQ` response text: the
parsed RSSI, with every parse failure caught by the bare `except` and turned
into `0`. -/
def nb_iot_check_signal (resp : List Char) : ℤ := (parseSignal resp).getD 0

/-- `nb_iot_wait_network()`: poll `nb_iot_check_signal` on the stream of modem
responses (the i-th poll reads `resps i`), looping with a fixed sleep until
the value is strictly between 0 and 99.  Structured as fuel-indexed recursion;
`none` means the loop was still spinning after `fuel` polls. -/
def nb_iot_wait_network (resps : ℕ → List Char) : ℕ → ℕ → Option ℤ
  | 0, _ => none
  | fuel + 1, i =>
    if 0 < nb_iot_check_signal (resps i) ∧ nb_iot_check_signal (resps i) < 99
    then some (nb_iot_check_signal (resps i))
    else nb_iot_wait_network resps fuel (i + 1)

/-- C7: whenever `nb_iot_wait_network` returns, the returned signal value is
strictly between 0 and 99; any response the pipeline fails to parse is read as
the sentinel `0` rather than an error; and on a sentinel or otherwise invalid
reading the loop simply polls again (unbounded retry: one unit of fuel is
consumed and the loop continues with the next response). -/
theorem claim_C7 (resps : ℕ → List Char) (fuel i : ℕ) (r : ℤ)
    (hret : nb_iot_wait_network resps fuel i = some r) :
    (0 < r ∧ r < 99) ∧
    (∀ resp, parseSignal resp = none → nb_iot_check_signal resp = 0) ∧
    (∀ j f, ¬(0 < nb_iot_check_signal (resps j) ∧
        nb_iot_check_signal (resps j) < 99) →
      nb_iot_wait_network resps (f + 1) j =
        nb_iot_wait_network resps f (j + 1)) := by
  refine ⟨?_, ?_, ?_⟩
  · induction fuel generalizing i with
    | zero => simp [nb_iot_wait_network] at hret
    | succ f ih =>
      rw [nb_iot_wait_network] at hret
      split at hret
      · rename_i hvalid
        rw [Option.some.injEq] at hret
        exact hret ▸ hvalid
      · exact ih (i + 1) hret
  · intro resp hp
    simp [nb_iot_check_signal, hp]
  · intro j f hinv
    rw [nb_iot_wait_network, if_neg hinv]

/-- C7 witness: the response stream `0, 0, 15` (two sentinel readings, then a
valid RSSI of 15): the loop returns 15, which lies strictly between 0 and
99. -/
theorem claim_C7_witness :
    (0 < (15 : ℤ) ∧ (15 : ℤ) < 99) ∧
    (∀ resp, parseSignal resp = none → nb_iot_check_signal resp = 0) ∧
    (∀ j f, ¬(0 < nb_iot_check_signal
        ((fun n => (["+CSQ: 0,0".toList, "+CSQ: 0,0".toList,
          "+CSQ: 15,0".toList].getD n [])) j) ∧
        nb_iot_check_signal ((fun n => (["+CSQ: 0,0".toList,
          "+CSQ: 0,0".toList, "+CSQ: 15,0".toList].getD n [])) j) < 99) →
      nb_iot_wait_network (fun n => (["+CSQ: 0,0".toList, "+CSQ: 0,0".toList,
          "+CSQ: 15,0".toList].getD n [])) (f + 1) j =
        nb_iot_wait_network (fun n => (["+CSQ: 0,0".toList,
          "+CSQ: 0,0".toList, "+CSQ: 15,0".toList].getD n [])) f (j + 1)) :=
  claim_C7 (fun n => (["+CSQ: 0,0".toList, "+CSQ: 0,0".toList,
    "+CSQ: 15,0".toList].getD n [])) 3 0 15 (by decide)

end IoTTemp
